import Mathlib

/-!
# fronius-bc: price-window selection and charge decision

A shallow embedding of `main.go`:

* `getEVCCState` (the part after the HTTP fetch and JSON decode, lines 58-85): the scan
  for the lowest forecast price between two indices of the forecast grid;
* `setEVCCCharging` (lines 88-160): the decision whether to POST a grid-charge limit.

`float64` values are taken as exact rationals: the program only compares them, assigns
the constant `0` and formats the price with the verb `%f`, whose rounding to six decimals
is modelled by `fmtFloat6`.  The HTTP transport and logging are not modelled:
`getEVCCState` takes the decoded response, and `setEVCCCharging` takes the value of
`time.Now()` and returns the POST it would issue.
-/

namespace FroniusBC

/-! ## Data model -/

/-- Wall-clock reading of a Go `time.Time`. -/
structure Time where
  year : Nat
  month : Nat
  day : Nat
  hour : Nat
  minute : Nat
  second : Nat
  deriving DecidableEq

/-- The zero value of `time.Time`: January 1, year 1, 00:00:00 UTC. -/
def Time.zero : Time := ⟨1, 1, 1, 0, 0, 0⟩

/-- Go `Time.Hour()`: the hour within the day. -/
def Time.Hour (t : Time) : Nat := t.hour

/-- Go `Time.Minute()`: the minute offset within the hour. -/
def Time.Minute (t : Time) : Nat := t.minute

/-- The struct `LOWESTPrice` (lines 14-23). -/
structure LOWESTPrice where
  Price : ℚ
  Iter : Int
  Start : Time
  End : Time
  SoC : ℚ
  BatteryMode : String
  BatteryLimit : ℚ
  CurrentPrice : ℚ
  deriving DecidableEq

/-- The zero value of `LOWESTPrice`, as produced by `var lowestPrice LOWESTPrice`. -/
def LOWESTPrice.zero : LOWESTPrice :=
  { Price := 0, Iter := 0, Start := Time.zero, End := Time.zero, SoC := 0,
    BatteryMode := "", BatteryLimit := 0, CurrentPrice := 0 }

/-- One element of `EVCCState.Result.Forecast.Grid` (lines 31-35). -/
structure GridSlot where
  Start : Time
  End : Time
  Price : ℚ
  deriving DecidableEq

/-- The anonymous struct `EVCCState.Result.Forecast`. -/
structure EVCCForecast where
  Grid : List GridSlot

/-- The anonymous struct `EVCCState.Result` (lines 26-37). -/
structure EVCCResult where
  BatteryMode : String
  BatterySoc : ℚ
  TariffGrid : ℚ
  Forecast : EVCCForecast

/-- The struct `EVCCState` (lines 25-38): the decoded `/api/state` response. -/
structure EVCCState where
  Result : EVCCResult

/-- Go run-time panics that the modelled code can raise. -/
inductive RuntimeError where
  /-- The panic `index out of range [index] with length length` of a slice access. -/
  | indexOutOfRange (index : Int) (length : Nat)
  deriving DecidableEq

/-! ## `getEVCCState` -/

/-- The slice access `evccResp.Result.Forecast.Grid[i]` with Go's bounds check. -/
def gridAt (grid : List GridSlot) (i : Int) : Except RuntimeError GridSlot :=
  if 0 ≤ i then
    match grid[i.toNat]? with
    | some g => .ok g
    | none => .error (.indexOutOfRange i grid.length)
  else .error (.indexOutOfRange i grid.length)

/-- The body of the loop `for i := start; i <= end; i++` (lines 65-71) at index `i`. -/
def scanStep (grid : List GridSlot) (batteryMode : String) (i : Int)
    (lowestPrice : LOWESTPrice) : Except RuntimeError LOWESTPrice :=
  match gridAt grid i with
  | .error e => .error e
  | .ok g =>
    if g.Price ≤ lowestPrice.Price then
      .ok { lowestPrice with
              Price := g.Price, Start := g.Start, End := g.End, BatteryMode := batteryMode }
    else .ok lowestPrice

/-- The loop `for i := start; i <= end; i++` (lines 64-72), run for `n` iterations from
index `i`; `getEVCCState` calls it with the exact iteration count `end - start + 1`. -/
def scanLoop (grid : List GridSlot) (batteryMode : String) :
    Nat → Int → LOWESTPrice → Except RuntimeError LOWESTPrice
  | 0, _, lowestPrice => .ok lowestPrice
  | n + 1, i, lowestPrice =>
    match scanStep grid batteryMode i lowestPrice with
    | .error e => .error e
    | .ok lowestPrice' => scanLoop grid batteryMode n (i + 1) lowestPrice'

/-- The function `getEVCCState` from the decoded response on (lines 58-85). -/
def getEVCCState (evccResp : EVCCState) (start endIdx : Int) (batteryLimit : ℚ) :
    Except RuntimeError LOWESTPrice :=
  let grid := evccResp.Result.Forecast.Grid
  let scanned : Except RuntimeError LOWESTPrice :=
    match grid with
    | g0 :: _ =>
      scanLoop grid evccResp.Result.BatteryMode (endIdx - start + 1).toNat start
        { LOWESTPrice.zero with Price := g0.Price, CurrentPrice := evccResp.Result.TariffGrid }
    | [] => .ok { LOWESTPrice.zero with Price := 0, CurrentPrice := 0 }
  match scanned with
  | .error e => .error e
  | .ok lowestPrice =>
    .ok { lowestPrice with BatteryLimit := batteryLimit, SoC := evccResp.Result.BatterySoc }

/-! ## `setEVCCCharging` -/

/-- The number that `fmt.Sprintf` writes for the verb `%f` (lines 91 and 135): the value
rounded to six decimals, a tie going to the even last digit as Go's decimal conversion
does. -/
def fmtFloat6 (x : ℚ) : ℚ :=
  let scaled : ℚ := x * 1000000
  let lower : Int := ⌊scaled⌋
  let rest : ℚ := scaled - (lower : ℚ)
  let digits : Int :=
    if rest < 1 / 2 then lower
    else if 1 / 2 < rest then lower + 1
    else if lower % 2 = 0 then lower
    else lower + 1
  (digits : ℚ) / 1000000

/-- What `setEVCCCharging` sends to `/api/batterygridchargelimit/<price>`: the POST of
lines 137-146 (`Start`), the POST of lines 149-158 (`Stop`), or nothing (`NoOp`).  The
argument is the number in the URL built at line 135, `evccState.Price` as formatted by
`%f`. -/
inductive ChargeCommand where
  | Start (threshold : ℚ)
  | Stop (threshold : ℚ)
  | NoOp
  deriving DecidableEq

/-- The hour test of lines 101-108, with `t` the value of `time.Now()`. -/
def timeCheckPassed (t : Time) (evccState : LOWESTPrice) : Bool :=
  if t.Hour ≥ evccState.Start.Hour ∧ t.Hour < evccState.End.Hour then true else false

/-- Lines 110-133: the pair of `evccState` (whose `Price` may be zeroed) and
`startCharging` after the mode analysis. -/
def chargeAnalysis (t : Time) (evccState : LOWESTPrice) : LOWESTPrice × Bool :=
  let startCharging := false
  if evccState.BatteryMode = "normal" ∨ evccState.BatteryMode = "unknown" then
    if evccState.SoC < evccState.BatteryLimit ∧ timeCheckPassed t evccState = true then
      (evccState, true)
    else (evccState, false)
  else if evccState.BatteryMode = "charge" then
    let s1 : LOWESTPrice × Bool :=
      if evccState.CurrentPrice > evccState.Price then ({ evccState with Price := 0 }, false)
      else (evccState, startCharging)
    let s2 : LOWESTPrice × Bool :=
      if s1.1.SoC > s1.1.BatteryLimit then ({ s1.1 with Price := 0 }, false)
      else s1
    s2
  else (evccState, startCharging)

/-- The function `setEVCCCharging` (lines 88-160) at clock reading `t`. -/
def setEVCCCharging (t : Time) (evccState0 : LOWESTPrice) : ChargeCommand :=
  let evccState := (chargeAnalysis t evccState0).1
  let startCharging := (chargeAnalysis t evccState0).2
  let evccURL : ℚ := fmtFloat6 evccState.Price
  if (evccState.BatteryMode = "normal" ∧ startCharging = true) ∨
      (evccState.BatteryMode = "unknown" ∧ startCharging = true) then
    .Start evccURL
  else if evccState.BatteryMode = "charge" ∧ evccState.SoC ≤ evccState.BatteryLimit then
    .NoOp
  else if evccState.BatteryMode = "charge" ∧ startCharging = false then
    .Stop evccURL
  else .NoOp

/-! ## Concrete inputs used below -/

/-- A clock reading on 2024-05-01 at `h:m:00`. -/
def clock (h m : Nat) : Time := ⟨2024, 5, 1, h, m, 0⟩

/-- The forecast slot `[h:00, (h+1):00)` with price `p`. -/
def slotAt (h : Nat) (p : ℚ) : GridSlot := ⟨clock h 0, clock (h + 1) 0, p⟩

/-- A decoded response in mode `normal`, SoC 40, live tariff 0.30, with the given grid. -/
def responseWith (grid : List GridSlot) : EVCCState :=
  ⟨⟨"normal", 40, 3 / 10, ⟨grid⟩⟩⟩

/-- The grid with prices `[5,3,3,7]` at indices `0..3`. -/
def tieGrid : List GridSlot := [slotAt 0 5, slotAt 1 3, slotAt 2 3, slotAt 3 7]

/-- The grid with prices `[1,5,5]`: slot 0 is cheaper than every slot of the range `1..2`. -/
def seedGrid : List GridSlot := [slotAt 0 1, slotAt 1 5, slotAt 2 5]

/-- The window `[13:00, 15:00)` at price 0.12 with the given mode, SoC and live tariff,
SoC limit 80. -/
def windowAt (mode : String) (soc tariff : ℚ) : LOWESTPrice :=
  { Price := 12 / 100, Iter := 0, Start := clock 13 0, End := clock 15 0, SoC := soc,
    BatteryMode := mode, BatteryLimit := 80, CurrentPrice := tariff }

/-- The window `[13:00, 15:00)` at price 0.1234567, a price with seven decimals, mode
`normal`, SoC 40, SoC limit 80. -/
def windowSevenDecimals : LOWESTPrice :=
  { Price := 1234567 / 10000000, Iter := 0, Start := clock 13 0, End := clock 15 0,
    SoC := 40, BatteryMode := "normal", BatteryLimit := 80, CurrentPrice := 3 / 10 }

/-- The window `[13:00, 14:30)` at price 0.12, mode `normal`, SoC 40, SoC limit 80. -/
def windowEnding1430 : LOWESTPrice :=
  { Price := 12 / 100, Iter := 0, Start := clock 13 0, End := clock 14 30, SoC := 40,
    BatteryMode := "normal", BatteryLimit := 80, CurrentPrice := 1 / 10 }


/-! ## Lemmas on the scan -/

theorem gridAt_ofNat (grid : List GridSlot) (n : Nat) (s : GridSlot)
    (h : grid[n]? = some s) : gridAt grid (n : Int) = .ok s := by
  simp [gridAt, h]

theorem gridAt_length_le (grid : List GridSlot) (n : Nat) (h : grid.length ≤ n) :
    gridAt grid (n : Int) = .error (.indexOutOfRange (n : Int) grid.length) := by
  have hnone : grid[n]? = none := List.getElem?_eq_none h
  simp [gridAt, hnone]

theorem scanLoop_succ (grid : List GridSlot) (mode : String) (n i : Nat) (lp : LOWESTPrice)
    (g : GridSlot) (hg : grid[i]? = some g) :
    scanLoop grid mode (n + 1) (i : Int) lp =
      scanLoop grid mode n ((i + 1 : Nat) : Int)
        (if g.Price ≤ lp.Price then
          { lp with Price := g.Price, Start := g.Start, End := g.End, BatteryMode := mode }
         else lp) := by
  simp only [scanLoop, scanStep, gridAt_ofNat grid i g hg]
  split_ifs <;> simp

/-- Functional description of the scan over in-bounds indices `i .. i+n-1`: either no
slot met the `<=` test and the accumulator is returned unchanged, or the result is
anchored at the last slot `k` of least price, which does not exceed the seed. -/
theorem scanLoop_spec (grid : List GridSlot) (mode : String) :
    ∀ (n i : Nat) (lp : LOWESTPrice), i + n ≤ grid.length →
      (scanLoop grid mode n (i : Int) lp = .ok lp ∧
        ∀ (k : Nat) (s : GridSlot), i ≤ k → k < i + n → grid[k]? = some s →
          lp.Price < s.Price) ∨
      ∃ (k : Nat) (s : GridSlot), i ≤ k ∧ k < i + n ∧ grid[k]? = some s ∧
        scanLoop grid mode n (i : Int) lp =
          .ok { lp with Price := s.Price, Start := s.Start, End := s.End,
                        BatteryMode := mode } ∧
        s.Price ≤ lp.Price ∧
        (∀ (k' : Nat) (s' : GridSlot), i ≤ k' → k' < i + n → grid[k']? = some s' →
          s.Price ≤ s'.Price) ∧
        (∀ (k' : Nat) (s' : GridSlot), k < k' → k' < i + n → grid[k']? = some s' →
          s.Price < s'.Price) := by
  intro n
  induction n with
  | zero =>
    intro i lp _
    exact Or.inl ⟨rfl, fun k s h1 h2 _ => absurd h2 (by omega)⟩
  | succ n ih =>
    intro i lp h
    have hi : i < grid.length := by omega
    have hg : grid[i]? = some grid[i] := List.getElem?_eq_getElem hi
    rw [scanLoop_succ grid mode n i lp grid[i] hg]
    by_cases hle : grid[i].Price ≤ lp.Price
    · rw [if_pos hle]
      right
      rcases ih (i + 1) _ (by omega) with ⟨hr, hall⟩ | ⟨k, s, hk1, hk2, hks, hr, hsle, hall, hlater⟩
      · refine ⟨i, grid[i], le_refl i, by omega, hg, hr, hle, ?_, ?_⟩
        · intro k' s' h1 h2 h3
          rcases Nat.eq_or_lt_of_le h1 with heq | hlt
          · subst heq
            rw [hg] at h3
            cases h3
            exact le_refl _
          · exact le_of_lt (hall k' s' hlt (by omega) h3)
        · intro k' s' h1 h2 h3
          exact hall k' s' h1 (by omega) h3
      · refine ⟨k, s, by omega, by omega, hks, hr, le_trans hsle hle, ?_, ?_⟩
        · intro k' s' h1 h2 h3
          rcases Nat.eq_or_lt_of_le h1 with heq | hlt
          · subst heq
            rw [hg] at h3
            cases h3
            exact hsle
          · exact hall k' s' hlt (by omega) h3
        · intro k' s' h1 h2 h3
          exact hlater k' s' h1 (by omega) h3
    · rw [if_neg hle]
      have hlt0 : lp.Price < grid[i].Price := lt_of_not_le hle
      rcases ih (i + 1) lp (by omega) with ⟨hr, hall⟩ | ⟨k, s, hk1, hk2, hks, hr, hsle, hall, hlater⟩
      · left
        refine ⟨hr, ?_⟩
        intro k' s' h1 h2 h3
        rcases Nat.eq_or_lt_of_le h1 with heq | hlt
        · subst heq
          rw [hg] at h3
          cases h3
          exact hlt0
        · exact hall k' s' hlt (by omega) h3
      · right
        refine ⟨k, s, by omega, by omega, hks, hr, hsle, ?_, ?_⟩
        · intro k' s' h1 h2 h3
          rcases Nat.eq_or_lt_of_le h1 with heq | hlt
          · subst heq
            rw [hg] at h3
            cases h3
            exact le_of_lt (lt_of_le_of_lt hsle hlt0)
          · exact hall k' s' hlt (by omega) h3
        · intro k' s' h1 h2 h3
          exact hlater k' s' h1 (by omega) h3

/-- Out-of-range scan: when the last index `i+n-1` of the loop is not a valid index, the
loop panics at the first invalid index it reaches, `max i (len grid)`. -/
theorem scanLoop_out_of_range (grid : List GridSlot) (mode : String) :
    ∀ (n i : Nat) (lp : LOWESTPrice), 0 < n → grid.length < i + n →
      scanLoop grid mode n (i : Int) lp =
        .error (.indexOutOfRange ((max i grid.length : Nat) : Int) grid.length) := by
  intro n
  induction n with
  | zero => intro i lp h; exact absurd h (by omega)
  | succ n ih =>
    intro i lp _ h
    by_cases hi : grid.length ≤ i
    · simp only [scanLoop, scanStep, gridAt_length_le grid i hi]
      rw [max_eq_left hi]
    · have hi' : i < grid.length := by omega
      have hg : grid[i]? = some grid[i] := List.getElem?_eq_getElem hi'
      rw [scanLoop_succ grid mode n i lp grid[i] hg, ih (i + 1) _ (by omega) (by omega)]
      have h1 : max (i + 1) grid.length = grid.length := max_eq_right (by omega)
      have h2 : max i grid.length = grid.length := max_eq_right (by omega)
      rw [h1, h2]


/-- Functional description of `getEVCCState` on a non-empty grid and a valid index
range: it returns, and the window is either the untouched seed `Grid[0].Price` (every
slot of the range is dearer) or anchored at the last slot of least price in the range. -/
theorem getEVCCState_spec (evccResp : EVCCState) (start endIdx : Int) (batteryLimit : ℚ)
    (g0 : GridSlot) (rest : List GridSlot) (hgrid : evccResp.Result.Forecast.Grid = g0 :: rest)
    (h0 : 0 ≤ start) (hse : start ≤ endIdx)
    (hlen : endIdx < (evccResp.Result.Forecast.Grid.length : Int)) :
    ∃ r, getEVCCState evccResp start endIdx batteryLimit = .ok r ∧
      r.BatteryLimit = batteryLimit ∧ r.SoC = evccResp.Result.BatterySoc ∧
      r.CurrentPrice = evccResp.Result.TariffGrid ∧
      ((r.Price = g0.Price ∧ r.Start = Time.zero ∧ r.End = Time.zero ∧ r.BatteryMode = "" ∧
          ∀ (k : Nat) (s : GridSlot), start ≤ (k : Int) → (k : Int) ≤ endIdx →
            evccResp.Result.Forecast.Grid[k]? = some s → g0.Price < s.Price) ∨
       ∃ (k : Nat) (s : GridSlot), start ≤ (k : Int) ∧ (k : Int) ≤ endIdx ∧
          evccResp.Result.Forecast.Grid[k]? = some s ∧
          r.Price = s.Price ∧ r.Start = s.Start ∧ r.End = s.End ∧
          r.BatteryMode = evccResp.Result.BatteryMode ∧ s.Price ≤ g0.Price ∧
          (∀ (k' : Nat) (s' : GridSlot), start ≤ (k' : Int) → (k' : Int) ≤ endIdx →
            evccResp.Result.Forecast.Grid[k']? = some s' → s.Price ≤ s'.Price) ∧
          (∀ (k' : Nat) (s' : GridSlot), k < k' → (k' : Int) ≤ endIdx →
            evccResp.Result.Forecast.Grid[k']? = some s' → s.Price < s'.Price)) := by
  obtain ⟨i, rfl⟩ := Int.eq_ofNat_of_zero_le h0
  obtain ⟨e, rfl⟩ := Int.eq_ofNat_of_zero_le (le_trans h0 hse)
  have hie : i ≤ e := by exact_mod_cast hse
  have hel : e < evccResp.Result.Forecast.Grid.length := by exact_mod_cast hlen
  have hn : ((e : Int) - (i : Int) + 1).toNat = e - i + 1 := by omega
  have hbound : i + (e - i + 1) ≤ evccResp.Result.Forecast.Grid.length := by omega
  have hspec := scanLoop_spec evccResp.Result.Forecast.Grid evccResp.Result.BatteryMode
    (e - i + 1) i
    { LOWESTPrice.zero with Price := g0.Price, CurrentPrice := evccResp.Result.TariffGrid }
    hbound
  have hget : getEVCCState evccResp (i : Int) (e : Int) batteryLimit =
      match scanLoop evccResp.Result.Forecast.Grid evccResp.Result.BatteryMode (e - i + 1)
        (i : Int)
        { LOWESTPrice.zero with
            Price := g0.Price, CurrentPrice := evccResp.Result.TariffGrid } with
      | .error err => .error err
      | .ok lowestPrice =>
        .ok { lowestPrice with
                BatteryLimit := batteryLimit, SoC := evccResp.Result.BatterySoc } := by
    simp only [getEVCCState, hn]
    generalize hG : evccResp.Result.Forecast.Grid = G at hgrid
    subst hgrid
    rfl
  rcases hspec with ⟨hr, hall⟩ | ⟨k, s, hk1, hk2, hks, hr, hsle, hall, hlater⟩
  · rw [hget, hr]
    refine ⟨_, rfl, rfl, rfl, rfl, Or.inl ⟨rfl, rfl, rfl, rfl, ?_⟩⟩
    intro k s h1 h2 h3
    exact hall k s (by exact_mod_cast h1) (by omega) h3
  · rw [hget, hr]
    refine ⟨_, rfl, rfl, rfl, rfl, Or.inr ⟨k, s, by exact_mod_cast hk1, by omega, hks, rfl, rfl,
      rfl, rfl, hsle, ?_, ?_⟩⟩
    · intro k' s' h1 h2 h3
      exact hall k' s' (by exact_mod_cast h1) (by omega) h3
    · intro k' s' h1 h2 h3
      exact hlater k' s' h1 (by omega) h3

/-! ## The `%f` rounding -/

/-- A value with at most six decimals is written unchanged. -/
theorem fmtFloat6_of_int (n : Int) :
    fmtFloat6 ((n : ℚ) / 1000000) = (n : ℚ) / 1000000 := by
  have hs : (n : ℚ) / 1000000 * 1000000 = (n : ℚ) := by
    field_simp
  simp only [fmtFloat6, hs, Int.floor_intCast, sub_self]
  norm_num

theorem fmtFloat6_zero : fmtFloat6 0 = 0 := by
  have h := fmtFloat6_of_int 0
  simpa using h

/-- The written value is within half a unit of the sixth decimal of the value. -/
theorem fmtFloat6_near (x : ℚ) : |fmtFloat6 x - x| ≤ 1 / 2000000 := by
  have h1 : ((⌊x * 1000000⌋ : Int) : ℚ) ≤ x * 1000000 := Int.floor_le _
  have h2 : x * 1000000 < ((⌊x * 1000000⌋ : Int) : ℚ) + 1 := Int.lt_floor_add_one _
  rw [abs_le]
  simp only [fmtFloat6]
  split_ifs with ha hb hc
  · constructor <;> linarith
  · push_cast
    constructor <;> linarith
  · have hr : x * 1000000 - ((⌊x * 1000000⌋ : Int) : ℚ) = 1 / 2 :=
      le_antisymm (not_lt.mp hb) (not_lt.mp ha)
    constructor <;> linarith
  · have hr : x * 1000000 - ((⌊x * 1000000⌋ : Int) : ℚ) = 1 / 2 :=
      le_antisymm (not_lt.mp hb) (not_lt.mp ha)
    push_cast
    constructor <;> linarith

/-- The value 0.1234567 is written as 0.123457. -/
theorem fmtFloat6_seven_decimals : fmtFloat6 (1234567 / 10000000) = 123457 / 1000000 := by
  have hf : ⌊(1234567 / 10000000 : ℚ) * 1000000⌋ = 123456 := by
    rw [Int.floor_eq_iff]
    constructor <;> norm_num
  simp only [fmtFloat6, hf]
  norm_num

/-! ## The decision of `setEVCCCharging` -/

/-- In mode `charge` the decision depends only on the comparison of SoC and limit: the
branch of line 147 is tested before the stop branch of line 149. -/
theorem setEVCCCharging_charge (t : Time) (w : LOWESTPrice) (hmode : w.BatteryMode = "charge") :
    setEVCCCharging t w =
      if w.SoC ≤ w.BatteryLimit then ChargeCommand.NoOp else ChargeCommand.Stop 0 := by
  have h1 : ¬ ("charge" = "normal") := by decide
  have h2 : ¬ ("charge" = "unknown") := by decide
  by_cases hs : w.SoC ≤ w.BatteryLimit
  · have hs' : ¬ (w.SoC > w.BatteryLimit) := not_lt.mpr hs
    by_cases hp : w.CurrentPrice > w.Price <;>
      simp [setEVCCCharging, chargeAnalysis, hmode, h1, h2, hs, hs', hp, fmtFloat6_zero]
  · have hs' : w.SoC > w.BatteryLimit := lt_of_not_le hs
    by_cases hp : w.CurrentPrice > w.Price <;>
      simp [setEVCCCharging, chargeAnalysis, hmode, h1, h2, hs, hs', hp, fmtFloat6_zero]

/-- In mode `normal` or `unknown` the decision is `Start` at the window price as written
by `%f` when the hour test passes and the SoC is below the limit, and nothing is sent
otherwise. -/
theorem setEVCCCharging_idle (t : Time) (w : LOWESTPrice)
    (hmode : w.BatteryMode = "normal" ∨ w.BatteryMode = "unknown") :
    setEVCCCharging t w =
      if w.SoC < w.BatteryLimit ∧ timeCheckPassed t w = true then
        ChargeCommand.Start (fmtFloat6 w.Price)
      else ChargeCommand.NoOp := by
  have h1 : ¬ ("normal" = "charge") := by decide
  have h2 : ¬ ("unknown" = "charge") := by decide
  have h3 : ¬ ("unknown" = "normal") := by decide
  by_cases hc : w.SoC < w.BatteryLimit ∧ timeCheckPassed t w = true
  · rcases hmode with hm | hm <;>
      simp [setEVCCCharging, chargeAnalysis, hm, h1, h2, h3, hc]
  · rcases hmode with hm | hm <;>
      simp [setEVCCCharging, chargeAnalysis, hm, h1, h2, h3, hc]

theorem timeCheckPassed_iff (t : Time) (w : LOWESTPrice) :
    timeCheckPassed t w = true ↔ w.Start.Hour ≤ t.Hour ∧ t.Hour < w.End.Hour := by
  simp [timeCheckPassed]

/-! ## Window selection -/

/-- C1, evaluated on the code: for prices `[1,5,5]` and the range `1..2` the scan
returns price 1, the price of slot 0 outside the range, with unset start, end and
battery mode, although both slots of the range cost 5. -/
theorem getEVCCState_seed_outside_range :
    getEVCCState (responseWith seedGrid) 1 2 80 =
        .ok { Price := 1, Iter := 0, Start := Time.zero, End := Time.zero, SoC := 40,
              BatteryMode := "", BatteryLimit := 80, CurrentPrice := 3 / 10 } ∧
      seedGrid[1]? = some (slotAt 1 5) ∧ seedGrid[2]? = some (slotAt 2 5) ∧
      (slotAt 1 5).Price = 5 ∧ (slotAt 2 5).Price = 5 := by
  refine ⟨rfl, rfl, rfl, rfl, rfl⟩

/-- C8: on a non-empty grid and a valid index range `0 <= start <= endIdx < len`,
`getEVCCState` returns a window whose price is at most the price of every slot whose
index lies in `start..endIdx`. -/
theorem getEVCCState_price_le_range (evccResp : EVCCState) (start endIdx : Int)
    (batteryLimit : ℚ) (hne : evccResp.Result.Forecast.Grid ≠ [])
    (h0 : 0 ≤ start) (hse : start ≤ endIdx)
    (hlen : endIdx < (evccResp.Result.Forecast.Grid.length : Int)) :
    ∃ r, getEVCCState evccResp start endIdx batteryLimit = .ok r ∧
      ∀ (k : Nat) (s : GridSlot), start ≤ (k : Int) → (k : Int) ≤ endIdx →
        evccResp.Result.Forecast.Grid[k]? = some s → r.Price ≤ s.Price := by
  obtain ⟨g0, rest, hgrid⟩ := List.exists_cons_of_ne_nil hne
  obtain ⟨r, hr, _, _, _, hcase⟩ :=
    getEVCCState_spec evccResp start endIdx batteryLimit g0 rest hgrid h0 hse hlen
  refine ⟨r, hr, ?_⟩
  intro k s h1 h2 h3
  rcases hcase with ⟨hp, _, _, _, hall⟩ | ⟨j, sj, _, _, _, hp, _, _, _, _, hall, _⟩
  · rw [hp]
    exact le_of_lt (hall k s h1 h2 h3)
  · rw [hp]
    exact hall k s h1 h2 h3

/-- Witness for C8 on the grid `[5,3,3,7]` and the range `0..3`. -/
theorem getEVCCState_price_le_range_witness :
    (responseWith tieGrid).Result.Forecast.Grid ≠ [] ∧ (0 : Int) ≤ 0 ∧ (0 : Int) ≤ 3 ∧
      (3 : Int) < ((responseWith tieGrid).Result.Forecast.Grid.length : Int) ∧
      ∃ r, getEVCCState (responseWith tieGrid) 0 3 80 = .ok r ∧
        ∀ (k : Nat) (s : GridSlot), (0 : Int) ≤ (k : Int) → (k : Int) ≤ 3 →
          (responseWith tieGrid).Result.Forecast.Grid[k]? = some s → r.Price ≤ s.Price :=
  ⟨by decide, by decide, by decide, by decide,
    getEVCCState_price_le_range (responseWith tieGrid) 0 3 80 (by decide) (by decide)
      (by decide) (by decide)⟩

/-- C7: on a non-empty grid and a valid index range in which some slot has the returned
price, the returned start and end are those of the greatest index of the range whose
price equals the returned price. -/
theorem getEVCCState_tie_break_later (evccResp : EVCCState) (start endIdx : Int)
    (batteryLimit : ℚ) (hne : evccResp.Result.Forecast.Grid ≠ [])
    (h0 : 0 ≤ start) (hse : start ≤ endIdx)
    (hlen : endIdx < (evccResp.Result.Forecast.Grid.length : Int)) :
    ∃ r, getEVCCState evccResp start endIdx batteryLimit = .ok r ∧
      ((∃ (i : Nat) (s : GridSlot), start ≤ (i : Int) ∧ (i : Int) ≤ endIdx ∧
          evccResp.Result.Forecast.Grid[i]? = some s ∧ s.Price = r.Price) →
        ∃ (j : Nat) (sj : GridSlot), start ≤ (j : Int) ∧ (j : Int) ≤ endIdx ∧
          evccResp.Result.Forecast.Grid[j]? = some sj ∧ sj.Price = r.Price ∧
          (∀ (k : Nat) (s : GridSlot), start ≤ (k : Int) → (k : Int) ≤ endIdx →
            evccResp.Result.Forecast.Grid[k]? = some s → s.Price = r.Price → k ≤ j) ∧
          r.Start = sj.Start ∧ r.End = sj.End) := by
  obtain ⟨g0, rest, hgrid⟩ := List.exists_cons_of_ne_nil hne
  obtain ⟨r, hr, _, _, _, hcase⟩ :=
    getEVCCState_spec evccResp start endIdx batteryLimit g0 rest hgrid h0 hse hlen
  refine ⟨r, hr, ?_⟩
  rintro ⟨i, s, hi1, hi2, his, hip⟩
  rcases hcase with ⟨hp, _, _, _, hall⟩ | ⟨j, sj, hj1, hj2, hjs, hp, hst, hen, _, _, _, hlater⟩
  · have hlt := hall i s hi1 hi2 his
    rw [hip, hp] at hlt
    exact absurd hlt (lt_irrefl _)
  · refine ⟨j, sj, hj1, hj2, hjs, hp.symm, ?_, hst, hen⟩
    intro k s' _ hk2 hks hkp
    by_contra hkj
    have hlt := hlater k s' (Nat.lt_of_not_le hkj) hk2 hks
    rw [hkp, hp] at hlt
    exact absurd hlt (lt_irrefl _)

/-- Witness for C7: for prices `[5,3,3,7]` and the range `0..3` the returned window is
that of index 2 (`[2:00, 3:00)`), not that of index 1. -/
theorem getEVCCState_tie_break_later_witness :
    ((responseWith tieGrid).Result.Forecast.Grid ≠ [] ∧ (0 : Int) ≤ 0 ∧ (0 : Int) ≤ 3 ∧
      (3 : Int) < ((responseWith tieGrid).Result.Forecast.Grid.length : Int)) ∧
      (∃ r, getEVCCState (responseWith tieGrid) 0 3 80 = .ok r ∧
        ((∃ (i : Nat) (s : GridSlot), (0 : Int) ≤ (i : Int) ∧ (i : Int) ≤ 3 ∧
            (responseWith tieGrid).Result.Forecast.Grid[i]? = some s ∧ s.Price = r.Price) →
          ∃ (j : Nat) (sj : GridSlot), (0 : Int) ≤ (j : Int) ∧ (j : Int) ≤ 3 ∧
            (responseWith tieGrid).Result.Forecast.Grid[j]? = some sj ∧ sj.Price = r.Price ∧
            (∀ (k : Nat) (s : GridSlot), (0 : Int) ≤ (k : Int) → (k : Int) ≤ 3 →
              (responseWith tieGrid).Result.Forecast.Grid[k]? = some s →
                s.Price = r.Price → k ≤ j) ∧
            r.Start = sj.Start ∧ r.End = sj.End)) ∧
      getEVCCState (responseWith tieGrid) 0 3 80 =
        .ok { Price := 3, Iter := 0, Start := (slotAt 2 3).Start, End := (slotAt 2 3).End,
              SoC := 40, BatteryMode := "normal", BatteryLimit := 80,
              CurrentPrice := 3 / 10 } ∧
      (slotAt 2 3).Start ≠ (slotAt 1 3).Start :=
  ⟨⟨by decide, by decide, by decide, by decide⟩,
    getEVCCState_tie_break_later (responseWith tieGrid) 0 3 80 (by decide) (by decide)
      (by decide) (by decide),
    rfl, by decide⟩

/-- C5: on a non-empty grid, an index range `0 <= start <= endIdx` whose `endIdx` is not
a valid index makes `getEVCCState` fail with the index-out-of-range error raised at the
first invalid index it reaches; no window is returned. -/
theorem getEVCCState_range_error (evccResp : EVCCState) (start endIdx : Int)
    (batteryLimit : ℚ) (hne : evccResp.Result.Forecast.Grid ≠ [])
    (h0 : 0 ≤ start) (hse : start ≤ endIdx)
    (hlen : (evccResp.Result.Forecast.Grid.length : Int) ≤ endIdx) :
    getEVCCState evccResp start endIdx batteryLimit =
        .error (.indexOutOfRange (max start (evccResp.Result.Forecast.Grid.length : Int))
          evccResp.Result.Forecast.Grid.length) ∧
      ∀ r, getEVCCState evccResp start endIdx batteryLimit ≠ .ok r := by
  obtain ⟨g0, rest, hgrid⟩ := List.exists_cons_of_ne_nil hne
  obtain ⟨i, rfl⟩ := Int.eq_ofNat_of_zero_le h0
  obtain ⟨e, rfl⟩ := Int.eq_ofNat_of_zero_le (le_trans h0 hse)
  have hie : i ≤ e := by exact_mod_cast hse
  have hel : evccResp.Result.Forecast.Grid.length ≤ e := by exact_mod_cast hlen
  have hn : ((e : Int) - (i : Int) + 1).toNat = e - i + 1 := by omega
  have hloop := scanLoop_out_of_range evccResp.Result.Forecast.Grid evccResp.Result.BatteryMode
    (e - i + 1) i
    { LOWESTPrice.zero with Price := g0.Price, CurrentPrice := evccResp.Result.TariffGrid }
    (by omega) (by omega)
  have hget : getEVCCState evccResp (i : Int) (e : Int) batteryLimit =
      .error (.indexOutOfRange ((max i evccResp.Result.Forecast.Grid.length : Nat) : Int)
        evccResp.Result.Forecast.Grid.length) := by
    simp only [getEVCCState, hn]
    generalize hG : evccResp.Result.Forecast.Grid = G at hgrid hloop
    subst hgrid
    simp only [hloop]
  have hmax : ((max i evccResp.Result.Forecast.Grid.length : Nat) : Int) =
      max (i : Int) (evccResp.Result.Forecast.Grid.length : Int) := by
    push_cast
    rfl
  rw [hget, hmax]
  exact ⟨rfl, fun r h => by cases h⟩

/-- Witness for C5: the grid `[5,3,3,7]` scanned over `1..4` panics at index 4. -/
theorem getEVCCState_range_error_witness :
    ((responseWith tieGrid).Result.Forecast.Grid ≠ [] ∧ (0 : Int) ≤ 1 ∧ (1 : Int) ≤ 4 ∧
      ((responseWith tieGrid).Result.Forecast.Grid.length : Int) ≤ 4) ∧
      (getEVCCState (responseWith tieGrid) 1 4 80 =
          .error (.indexOutOfRange
            (max 1 ((responseWith tieGrid).Result.Forecast.Grid.length : Int))
            (responseWith tieGrid).Result.Forecast.Grid.length) ∧
        ∀ r, getEVCCState (responseWith tieGrid) 1 4 80 ≠ .ok r) :=
  ⟨⟨by decide, by decide, by decide, by decide⟩,
    getEVCCState_range_error (responseWith tieGrid) 1 4 80 (by decide) (by decide)
      (by decide) (by decide)⟩

/-- C6: on an empty grid, for every index range, device snapshot and SoC limit,
`getEVCCState` returns a window with price 0 and zero-valued start and end, and for every
clock reading `setEVCCCharging` sends nothing on that window. -/
theorem empty_forecast_no_command (mode : String) (soc tariff : ℚ) (start endIdx : Int)
    (batteryLimit : ℚ) :
    ∃ r, getEVCCState ⟨⟨mode, soc, tariff, ⟨[]⟩⟩⟩ start endIdx batteryLimit = .ok r ∧
      r.Price = 0 ∧ r.Start = Time.zero ∧ r.End = Time.zero ∧
      ∀ t : Time, setEVCCCharging t r = ChargeCommand.NoOp := by
  refine ⟨_, rfl, rfl, rfl, rfl, ?_⟩
  intro t
  have h1 : ¬ ("" = "normal") := by decide
  have h2 : ¬ ("" = "unknown") := by decide
  have h3 : ¬ ("" = "charge") := by decide
  simp [setEVCCCharging, chargeAnalysis, LOWESTPrice.zero, h1, h2, h3]

/-! ## Charge decision -/

/-- C2, evaluated on the code: in mode `charge` with live tariff 0.30 above the window
price 0.12 and SoC 50 below the limit 80, `setEVCCCharging` sends nothing: the branch of
line 147 is taken before the stop branch. -/
theorem setEVCCCharging_price_rise_below_limit :
    (windowAt "charge" 50 (3 / 10)).BatteryMode = "charge" ∧
      (windowAt "charge" 50 (3 / 10)).CurrentPrice > (windowAt "charge" 50 (3 / 10)).Price ∧
      setEVCCCharging (clock 13 5) (windowAt "charge" 50 (3 / 10)) = ChargeCommand.NoOp := by
  refine ⟨rfl, by norm_num [windowAt], ?_⟩
  rw [setEVCCCharging_charge (clock 13 5) (windowAt "charge" 50 (3 / 10)) rfl]
  norm_num [windowAt]

/-- C3 as stated fails: in mode `normal` with SoC 40 below the limit 80 and the clock at
13:05 inside the window `[13:00, 15:00)`, the window price 0.1234567 is sent as 0.123457,
which is not the unmodified window price. -/
theorem setEVCCCharging_start_sends_rounded_price :
    windowSevenDecimals.BatteryMode = "normal" ∧
      (windowSevenDecimals.Start.Hour ≤ (clock 13 5).Hour ∧
        (clock 13 5).Hour < windowSevenDecimals.End.Hour ∧
        windowSevenDecimals.SoC < windowSevenDecimals.BatteryLimit) ∧
      setEVCCCharging (clock 13 5) windowSevenDecimals =
        ChargeCommand.Start (123457 / 1000000) ∧
      setEVCCCharging (clock 13 5) windowSevenDecimals ≠
        ChargeCommand.Start windowSevenDecimals.Price := by
  have hcond : windowSevenDecimals.SoC < windowSevenDecimals.BatteryLimit ∧
      timeCheckPassed (clock 13 5) windowSevenDecimals = true :=
    ⟨by norm_num [windowSevenDecimals], rfl⟩
  have hsend : setEVCCCharging (clock 13 5) windowSevenDecimals =
      ChargeCommand.Start (123457 / 1000000) := by
    rw [setEVCCCharging_idle (clock 13 5) windowSevenDecimals (Or.inl rfl), if_pos hcond]
    exact congrArg ChargeCommand.Start fmtFloat6_seven_decimals
  refine ⟨rfl, ⟨by decide, by decide, hcond.1⟩, hsend, ?_⟩
  rw [hsend]
  intro h
  have hp : (123457 / 1000000 : ℚ) = windowSevenDecimals.Price := ChargeCommand.Start.inj h
  norm_num [windowSevenDecimals] at hp

/-- C3 amended: in mode `normal` or `unknown`, `setEVCCCharging` sends `Start` with the
window price as written by `%f` exactly when the clock hour lies in
`[Start.Hour, End.Hour)` and the SoC is below the limit, and sends nothing otherwise; the
written price is the window price itself when that has at most six decimals, and is
always within 0.0000005 of it. -/
theorem setEVCCCharging_start_rounded (t : Time) (w : LOWESTPrice)
    (hmode : w.BatteryMode = "normal" ∨ w.BatteryMode = "unknown") :
    ((w.Start.Hour ≤ t.Hour ∧ t.Hour < w.End.Hour ∧ w.SoC < w.BatteryLimit) →
        setEVCCCharging t w = ChargeCommand.Start (fmtFloat6 w.Price)) ∧
      (¬ (w.Start.Hour ≤ t.Hour ∧ t.Hour < w.End.Hour ∧ w.SoC < w.BatteryLimit) →
        setEVCCCharging t w = ChargeCommand.NoOp) ∧
      (∀ n : Int, w.Price = (n : ℚ) / 1000000 → fmtFloat6 w.Price = w.Price) ∧
      |fmtFloat6 w.Price - w.Price| ≤ 1 / 2000000 := by
  rw [setEVCCCharging_idle t w hmode]
  refine ⟨?_, ?_, ?_, fmtFloat6_near w.Price⟩
  · rintro ⟨h1, h2, h3⟩
    rw [if_pos ⟨h3, (timeCheckPassed_iff t w).mpr ⟨h1, h2⟩⟩]
  · intro hn
    rw [if_neg]
    rintro ⟨h3, htc⟩
    obtain ⟨h1, h2⟩ := (timeCheckPassed_iff t w).mp htc
    exact hn ⟨h1, h2, h3⟩
  · intro n hn
    rw [hn]
    exact fmtFloat6_of_int n

/-- Witness for C3 amended: the start scenario (mode `normal`, SoC 40, limit 80, clock
13:05, window `[13:00, 15:00)` at 0.12, sent as 0.12) and the idle scenario at clock
20:00. -/
theorem setEVCCCharging_start_rounded_witness :
    ((windowAt "normal" 40 (3 / 10)).BatteryMode = "normal" ∨
        (windowAt "normal" 40 (3 / 10)).BatteryMode = "unknown") ∧
      setEVCCCharging (clock 13 5) (windowAt "normal" 40 (3 / 10)) =
        ChargeCommand.Start (fmtFloat6 (windowAt "normal" 40 (3 / 10)).Price) ∧
      fmtFloat6 (windowAt "normal" 40 (3 / 10)).Price = 12 / 100 ∧
      setEVCCCharging (clock 20 0) (windowAt "normal" 40 (3 / 10)) = ChargeCommand.NoOp :=
  ⟨Or.inl rfl,
    (setEVCCCharging_start_rounded (clock 13 5) (windowAt "normal" 40 (3 / 10))
      (Or.inl rfl)).1 ⟨by decide, by decide, by norm_num [windowAt]⟩,
    ((setEVCCCharging_start_rounded (clock 13 5) (windowAt "normal" 40 (3 / 10))
      (Or.inl rfl)).2.2.1 120000 (by norm_num [windowAt])).trans (by norm_num [windowAt]),
    (setEVCCCharging_start_rounded (clock 20 0) (windowAt "normal" 40 (3 / 10))
      (Or.inl rfl)).2.1 (fun h => absurd h.2.1 (by decide))⟩

/-- C4: in mode `charge` with the SoC strictly above the limit, `setEVCCCharging` sends
`Stop` with threshold exactly 0, for every live tariff, window price and clock reading. -/
theorem setEVCCCharging_stop_on_soc (t : Time) (w : LOWESTPrice)
    (hmode : w.BatteryMode = "charge") (hsoc : w.SoC > w.BatteryLimit) :
    setEVCCCharging t w = ChargeCommand.Stop 0 := by
  rw [setEVCCCharging_charge t w hmode, if_neg (not_le.mpr hsoc)]

/-- Witness for C4: mode `charge`, SoC 85 above the limit 80, live tariff 0.10. -/
theorem setEVCCCharging_stop_on_soc_witness :
    (windowAt "charge" 85 (1 / 10)).BatteryMode = "charge" ∧
      (windowAt "charge" 85 (1 / 10)).SoC > (windowAt "charge" 85 (1 / 10)).BatteryLimit ∧
      setEVCCCharging (clock 13 5) (windowAt "charge" 85 (1 / 10)) = ChargeCommand.Stop 0 :=
  ⟨rfl, by norm_num [windowAt],
    setEVCCCharging_stop_on_soc (clock 13 5) (windowAt "charge" 85 (1 / 10)) rfl
      (by norm_num [windowAt])⟩

/-- C10: in mode `charge` with the SoC at or below the limit, the live tariff at or below
the window price and the clock hour inside `[Start.Hour, End.Hour)`, `setEVCCCharging`
sends nothing. -/
theorem setEVCCCharging_continue (t : Time) (w : LOWESTPrice)
    (hmode : w.BatteryMode = "charge") (hsoc : w.SoC ≤ w.BatteryLimit)
    (_htariff : w.CurrentPrice ≤ w.Price)
    (_hin : w.Start.Hour ≤ t.Hour ∧ t.Hour < w.End.Hour) :
    setEVCCCharging t w = ChargeCommand.NoOp := by
  rw [setEVCCCharging_charge t w hmode, if_pos hsoc]

/-- Witness for C10: the continue scenario (mode `charge`, SoC 50, limit 80, live tariff
0.10, window `[13:00, 15:00)` at 0.12, clock 13:05). -/
theorem setEVCCCharging_continue_witness :
    ((windowAt "charge" 50 (1 / 10)).BatteryMode = "charge" ∧
      (windowAt "charge" 50 (1 / 10)).SoC ≤ (windowAt "charge" 50 (1 / 10)).BatteryLimit ∧
      (windowAt "charge" 50 (1 / 10)).CurrentPrice ≤ (windowAt "charge" 50 (1 / 10)).Price ∧
      ((windowAt "charge" 50 (1 / 10)).Start.Hour ≤ (clock 13 5).Hour ∧
        (clock 13 5).Hour < (windowAt "charge" 50 (1 / 10)).End.Hour)) ∧
      setEVCCCharging (clock 13 5) (windowAt "charge" 50 (1 / 10)) = ChargeCommand.NoOp :=
  ⟨⟨rfl, by norm_num [windowAt], by norm_num [windowAt], by decide, by decide⟩,
    setEVCCCharging_continue (clock 13 5) (windowAt "charge" 50 (1 / 10)) rfl
      (by norm_num [windowAt]) (by norm_num [windowAt]) ⟨by decide, by decide⟩⟩

/-- C9 as stated fails: the window `[13:00, 14:30)` has end hour 14, end minute 30 and
start hour 13, yet the clock reading 14:10 is outside it, and in mode `normal` with SoC 40
below the limit 80 nothing is sent. -/
theorem hour_14_outside_window_ending_1430 :
    windowEnding1430.End.Hour = 14 ∧ windowEnding1430.End.Minute = 30 ∧
      windowEnding1430.Start.Hour ≤ 14 ∧ (clock 14 10).Hour = 14 ∧
      windowEnding1430.BatteryMode = "normal" ∧
      windowEnding1430.SoC < windowEnding1430.BatteryLimit ∧
      timeCheckPassed (clock 14 10) windowEnding1430 = false ∧
      setEVCCCharging (clock 14 10) windowEnding1430 = ChargeCommand.NoOp ∧
      ¬ ∃ threshold : ℚ,
        setEVCCCharging (clock 14 10) windowEnding1430 = ChargeCommand.Start threshold := by
  have h : setEVCCCharging (clock 14 10) windowEnding1430 = ChargeCommand.NoOp := by
    rw [setEVCCCharging_idle (clock 14 10) windowEnding1430 (Or.inl rfl), if_neg]
    rintro ⟨_, htc⟩
    exact absurd htc (by decide)
  refine ⟨rfl, rfl, by decide, rfl, rfl, by norm_num [windowEnding1430], rfl, h, ?_⟩
  rw [h]
  rintro ⟨threshold, h'⟩
  exact ChargeCommand.noConfusion h'

/-- C9 amended: for a window whose end has hour 14 and minute 30, a clock reading of hour
`h` passes the hour test exactly when `Start.Hour <= h <= 13`; a reading of hour 14 is
outside the window, so in mode `normal` nothing is sent then, and in mode `normal` with
the SoC below the limit the decision is `Start` for `Start.Hour <= h <= 13`. -/
theorem timeCheckPassed_window_ending_1430 (t : Time) (w : LOWESTPrice)
    (hend : w.End.Hour = 14 ∧ w.End.Minute = 30) :
    (timeCheckPassed t w = true ↔ w.Start.Hour ≤ t.Hour ∧ t.Hour ≤ 13) ∧
      (t.Hour = 14 → timeCheckPassed t w = false) ∧
      (w.BatteryMode = "normal" → t.Hour = 14 → setEVCCCharging t w = ChargeCommand.NoOp) ∧
      (w.BatteryMode = "normal" → w.SoC < w.BatteryLimit → w.Start.Hour ≤ t.Hour →
        t.Hour ≤ 13 →
          ∃ threshold : ℚ, setEVCCCharging t w = ChargeCommand.Start threshold) := by
  have hiff : timeCheckPassed t w = true ↔ w.Start.Hour ≤ t.Hour ∧ t.Hour ≤ 13 := by
    rw [timeCheckPassed_iff, hend.1]
    omega
  have h14 : t.Hour = 14 → timeCheckPassed t w = false := by
    intro ht
    rw [← Bool.not_eq_true, hiff]
    omega
  refine ⟨hiff, h14, ?_, ?_⟩
  · intro hm ht
    rw [setEVCCCharging_idle t w (Or.inl hm), if_neg]
    rintro ⟨_, htc⟩
    rw [h14 ht] at htc
    cases htc
  · intro hm hsoc h1 h2
    rw [setEVCCCharging_idle t w (Or.inl hm), if_pos ⟨hsoc, hiff.mpr ⟨h1, h2⟩⟩]
    exact ⟨fmtFloat6 w.Price, rfl⟩

/-- Witness for C9 amended: the window `[13:00, 14:30)`, idle at 14:10 and started at
13:05. -/
theorem timeCheckPassed_window_ending_1430_witness :
    (windowEnding1430.End.Hour = 14 ∧ windowEnding1430.End.Minute = 30) ∧
      setEVCCCharging (clock 14 10) windowEnding1430 = ChargeCommand.NoOp ∧
      ∃ threshold : ℚ,
        setEVCCCharging (clock 13 5) windowEnding1430 = ChargeCommand.Start threshold :=
  ⟨⟨rfl, rfl⟩,
    (timeCheckPassed_window_ending_1430 (clock 14 10) windowEnding1430 ⟨rfl, rfl⟩).2.2.1
      rfl rfl,
    (timeCheckPassed_window_ending_1430 (clock 13 5) windowEnding1430 ⟨rfl, rfl⟩).2.2.2
      rfl (by norm_num [windowEnding1430]) (by decide) (by decide)⟩

end FroniusBC
